import Mathlib

/-
Verification of the Library View Engine of the photo-gallery frontend
(src/lib/store.ts).  The Svelte stores are embedded as an explicit record
`StoreState`; the `derived` stores (`filteredPhotos`, `groupedPhotos`) become
pure functions of that record; the async Tauri-backed operations
(`loadAllPhotos`, `loadMorePhotos`, `toggleFavorite`, `deletePhotos`,
`renamePhoto`, `hardDeletePhotos`) become state transformers that take the
repository call's outcome (`Option` result, `none` = the `invoke` threw) as an
explicit argument.

Timestamps: the code stores ISO strings and works with JavaScript `Date`
objects.  We embed a parsed timestamp as an integer count of milliseconds
since the Unix epoch, and model the local-time `Date` accessors
(`getFullYear`, `getMonth`, `getDate`, `getDay`) at UTC (fixed zero offset,
no DST) with the standard civil-calendar conversion on the proleptic
Gregorian calendar — the same arithmetic JS `Date` uses for UTC.
-/

namespace Store

/-- Milliseconds in one civil day (no DST in the UTC model). -/
def MS_PER_DAY : Int := 86400000

/-- Civil date (year, month 1..12, day 1..31) from a count of days since
1970-01-01, on the proleptic Gregorian calendar (Howard Hinnant's
`civil_from_days`). -/
def civilFromDays (z0 : Int) : Int × Int × Int :=
  let z := z0 + 719468
  let era := Int.fdiv z 146097
  let doe := z - era * 146097
  let yoe := Int.fdiv (doe - Int.fdiv doe 1460 + Int.fdiv doe 36524 - Int.fdiv doe 146096) 365
  let y := yoe + era * 400
  let doy := doe - (365 * yoe + Int.fdiv yoe 4 - Int.fdiv yoe 100)
  let mp := Int.fdiv (5 * doy + 2) 153
  let d := doy - Int.fdiv (153 * mp + 2) 5 + 1
  let m := if mp < 10 then mp + 3 else mp - 9
  (if m ≤ 2 then y + 1 else y, m, d)

/-- Days since 1970-01-01 of a civil date (year, month 1..12, day 1..31)
(Howard Hinnant's `days_from_civil`). -/
def daysFromCivil (y0 m d : Int) : Int :=
  let y := if m ≤ 2 then y0 - 1 else y0
  let era := Int.fdiv y 400
  let yoe := y - era * 400
  let doy := Int.fdiv (153 * (if 2 < m then m - 3 else m + 9) + 2) 5 + d - 1
  let doe := yoe * 365 + Int.fdiv yoe 4 - Int.fdiv yoe 100 + doy
  era * 146097 + doe - 719468

/-- Day index (days since epoch, floored) of an epoch-ms timestamp. -/
def epochDay (ms : Int) : Int := Int.fdiv ms MS_PER_DAY

/-- JS `Date.prototype.getFullYear` at UTC. -/
def jsGetFullYear (ms : Int) : Int := (civilFromDays (epochDay ms)).1

/-- JS `Date.prototype.getMonth` at UTC: zero-indexed month 0..11. -/
def jsGetMonth (ms : Int) : Int := (civilFromDays (epochDay ms)).2.1 - 1

/-- JS `Date.prototype.getDate` at UTC: day of month 1..31. -/
def jsGetDate (ms : Int) : Int := (civilFromDays (epochDay ms)).2.2

/-- JS `Date.prototype.getDay` at UTC: weekday, 0 = Sunday.
1970-01-01 (day 0) was a Thursday (4). -/
def jsGetDay (ms : Int) : Int := (epochDay ms + 4).emod 7

/-- JS `new Date(y, m, d)` (m zero-indexed, local midnight) as epoch ms,
for in-range month/day arguments as produced by `getMonth`/`getDate`. -/
def jsMakeDate (y m d : Int) : Int := daysFromCivil y (m + 1) d * MS_PER_DAY

-- ── Types (store.ts `Photo`, `FilterState`, enums) ──

/-- `Photo` record of store.ts.  `takenAt`/`modifiedAt`/`deletedAt` hold the
parsed timestamps (epoch ms); numeric EXIF values are abstracted to `Int`. -/
structure Photo where
  id : Nat
  path : String
  filename : String
  folderRel : String
  width : Option Int
  height : Option Int
  takenAt : Option Int
  modifiedAt : Int
  sizeBytes : Int
  mediaType : String
  source : String
  isFavorite : Bool
  isDeleted : Bool
  deletedAt : Option Int
  cameraMake : Option String
  cameraModel : Option String
  lens : Option String
  iso : Option Int
  shutterSpeed : Option String
  aperture : Option String
  focalLength : Option String
  gpsLat : Option Int
  gpsLon : Option Int
deriving DecidableEq, Repr

/-- `FilterState` of store.ts. -/
structure FilterState where
  selectedFolder : Option String
  selectedYear : Option Int
  selectedMonth : Option Int
  selectedMediaTypes : List String
deriving DecidableEq, Repr

/-- `SidebarSection` union type of store.ts. -/
inductive SidebarSection where
  | all | recents | favorites | videos | source | trash | album | tag
deriving DecidableEq, Repr

/-- `SortBy` union type of store.ts. -/
inductive SortBy where
  | dateDesc | dateAsc | nameAsc | nameDesc | sizeDesc | sizeAsc
deriving DecidableEq, Repr

/-- The writable stores of store.ts that the verified operations read or
write, gathered into one record.  `now` is the ambient clock (`new Date()`)
an invocation of the derived computations observes. -/
structure StoreState where
  photos : List Photo
  hasMorePhotos : Bool
  isLoadingMore : Bool
  selectedPhoto : Option Photo
  selectedPhotoIds : List Nat
  isMultiSelectMode : Bool
  filters : FilterState
  searchQuery : String
  sortBy : SortBy
  activeSection : SidebarSection
  activeSource : Option String
  now : Int
deriving DecidableEq, Repr

/-- `PAGE_SIZE` constant of store.ts. -/
def PAGE_SIZE : Nat := 100

/-- `MAX_PHOTOS_IN_MEMORY` constant of store.ts. -/
def MAX_PHOTOS_IN_MEMORY : Nat := 2000

/-- Effective date of a photo: `p.takenAt || p.modifiedAt`
(also written `p.takenAt ? ... : ...` in the year filter). -/
def effectiveDate (p : Photo) : Int := p.takenAt.getD p.modifiedAt

/-- JS truthiness of a nullable string (`null` and `""` are falsy). -/
def strTruthy (s : Option String) : Bool :=
  match s with
  | none => false
  | some v => v != ""

/-- JS `String.prototype.includes`: `sub` occurs contiguously in `s`. -/
def jsIncludes (s sub : String) : Bool := decide (sub.toList <:+: s.toList)

-- ── Filter Pipeline (derived store `filteredPhotos`, store.ts 220-303) ──
-- Each reassignment `filtered = filtered.filter(...)` of the source becomes
-- one stage function; `filteredPhotos` composes them in source order.

/-- Stage 1 (store.ts 226-228): `if ($activeSection === 'source' && $activeSource)`
keep photos of the active source. -/
def sourceFilterStage (sec : SidebarSection) (activeSource : Option String)
    (l : List Photo) : List Photo :=
  if sec = SidebarSection.source ∧ strTruthy activeSource then
    l.filter (fun p => p.source == activeSource.getD "")
  else l

/-- Stage 2 (store.ts 230-243): section-based filtering.  `favorites` keeps
favorites, `videos` keeps `mediaType === 'video'`, `recents` keeps photos
whose effective date is at or after `now` minus 30 days
(`cutoff.setDate(cutoff.getDate() - 30)`, i.e. 30 civil days earlier at the
same time of day — exactly `now - 30*MS_PER_DAY` in the UTC model); the
comparison is `date >= cutoff`, with no upper bound. -/
def sectionFilterStage (now : Int) (sec : SidebarSection)
    (l : List Photo) : List Photo :=
  match sec with
  | SidebarSection.favorites => l.filter (fun p => p.isFavorite)
  | SidebarSection.videos => l.filter (fun p => p.mediaType == "video")
  | SidebarSection.recents =>
      let cutoff := now - 30 * MS_PER_DAY
      l.filter (fun p => decide (cutoff ≤ effectiveDate p))
  | _ => l

/-- Stage 3 (store.ts 246-253): `if ($searchQuery)` case-insensitive
substring match on filename, path or folderRel. -/
def searchFilterStage (query : String) (l : List Photo) : List Photo :=
  if query != "" then
    let q := query.toLower
    l.filter (fun p =>
      jsIncludes p.filename.toLower q ||
      jsIncludes p.path.toLower q ||
      jsIncludes p.folderRel.toLower q)
  else l

/-- Stage 4 (store.ts 256-258): `if ($activeSection !== 'videos')` keep
photos whose mediaType is among the selected ones. -/
def mediaTypeFilterStage (sec : SidebarSection) (mediaTypes : List String)
    (l : List Photo) : List Photo :=
  if sec ≠ SidebarSection.videos then
    l.filter (fun p => mediaTypes.contains p.mediaType)
  else l

/-- Stage 5 (store.ts 261-263): `if ($filters.selectedFolder)` exact
folderRel match (JS truthiness: `null` and `""` skip the stage). -/
def folderFilterStage (folder : Option String) (l : List Photo) : List Photo :=
  if strTruthy folder then l.filter (fun p => p.folderRel == folder.getD "")
  else l

/-- Stage 6 (store.ts 266-271): `if ($filters.selectedYear)` — JS truthiness,
so a `null` or `0` year skips the stage — keep photos whose effective
date's year matches. -/
def yearFilterStage (year : Option Int) (l : List Photo) : List Photo :=
  match year with
  | none => l
  | some y =>
      if y = 0 then l
      else l.filter (fun p => jsGetFullYear (effectiveDate p) == y)

/-- Stage 7 (store.ts 274-279): `if ($filters.selectedMonth !== null &&
$filters.selectedYear)` — the month uses an explicit null check (month 0 =
January is fine) but the year is a truthiness check — keep photos matching
both the year and the zero-indexed month. -/
def monthFilterStage (year : Option Int) (month : Option Int)
    (l : List Photo) : List Photo :=
  match month with
  | none => l
  | some m =>
      match year with
      | none => l
      | some y =>
          if y = 0 then l
          else l.filter (fun p =>
            jsGetFullYear (effectiveDate p) == y && jsGetMonth (effectiveDate p) == m)

/-- The `sort` comparator of store.ts 282-299 as a boolean `le` relation
(`le a b` iff the comparator puts `a` at or before `b`).  `localeCompare`
is modeled as code-point string order.  Every `SortBy` value is covered, so
the `default: return 0` branch is unreachable. -/
def sortLe (sb : SortBy) (a b : Photo) : Bool :=
  match sb with
  | SortBy.dateDesc => decide (effectiveDate b ≤ effectiveDate a)
  | SortBy.dateAsc => decide (effectiveDate a ≤ effectiveDate b)
  | SortBy.nameAsc => decide (a.filename ≤ b.filename)
  | SortBy.nameDesc => decide (b.filename ≤ a.filename)
  | SortBy.sizeDesc => decide (b.sizeBytes ≤ a.sizeBytes)
  | SortBy.sizeAsc => decide (a.sizeBytes ≤ b.sizeBytes)

/-- Stage 8 (store.ts 282-299): `[...filtered].sort(comparator)` — JS
`Array.prototype.sort` is a stable sort, embedded as a stable merge sort. -/
def sortStage (sb : SortBy) (l : List Photo) : List Photo :=
  l.mergeSort (sortLe sb)

/-- The derived store `filteredPhotos` (store.ts 220-303): the composition
of the eight pipeline stages in source order, reading the six declared
dependency stores plus the ambient clock (the `recents` branch constructs
`new Date()`). -/
def filteredPhotos (s : StoreState) : List Photo :=
  sortStage s.sortBy
    (monthFilterStage s.filters.selectedYear s.filters.selectedMonth
      (yearFilterStage s.filters.selectedYear
        (folderFilterStage s.filters.selectedFolder
          (mediaTypeFilterStage s.activeSection s.filters.selectedMediaTypes
            (searchFilterStage s.searchQuery
              (sectionFilterStage s.now s.activeSection
                (sourceFilterStage s.activeSection s.activeSource s.photos)))))))

-- ── Grouping Engine (derived store `groupedPhotos`, store.ts 306-359) ──

/-- A date-labeled group emitted by `groupedPhotos`. -/
structure Group where
  label : String
  dateKey : String
  photos : List Photo
deriving DecidableEq, Repr

/-- The `monthNames` array of store.ts 337-338. -/
def monthNames : List String :=
  ["January", "February", "March", "April", "May", "June",
   "July", "August", "September", "October", "November", "December"]

/-- JS `String(m).padStart(2, '0')` for the zero-indexed month 0..11. -/
def padMonth (m : Int) : String :=
  let s := toString m
  if s.length < 2 then "0" ++ s else s

/-- The label/dateKey pair assigned to one photo (store.ts 317-341).
`photoDay` is `new Date(y, m, d)` of the photo's effective date; `today`,
`yesterday`, `thisWeekStart` (Sunday of the current week, via
`today.getDay()`), and `thisMonthStart` come from `now`. -/
def photoGroupInfo (now : Int) (p : Photo) : String × String :=
  let today := jsMakeDate (jsGetFullYear now) (jsGetMonth now) (jsGetDate now)
  let yesterday := today - 86400000
  let thisWeekStart := today - jsGetDay today * 86400000
  let thisMonthStart := jsMakeDate (jsGetFullYear now) (jsGetMonth now) 1
  let date := effectiveDate p
  let photoDay := jsMakeDate (jsGetFullYear date) (jsGetMonth date) (jsGetDate date)
  if photoDay = today then ("Today", "today")
  else if photoDay = yesterday then ("Yesterday", "yesterday")
  else if thisWeekStart ≤ photoDay then ("This Week", "this-week")
  else if thisMonthStart ≤ photoDay then ("This Month", "this-month")
  else
    let y := jsGetFullYear date
    let m0 := jsGetMonth date
    let name := monthNames.getD m0.toNat ""
    (s!"{name} {y}", s!"{y}-{padMonth m0}")

/-- The dateKey assigned to one photo. -/
def photoDateKey (now : Int) (p : Photo) : String := (photoGroupInfo now p).2

/-- One step of the grouping loop (store.ts 343-348): a JS `Map` preserves
key insertion order, so the map of buckets is embedded as the ordered list
of groups; a photo is pushed onto its existing bucket, or a new bucket
(with the label fixed at first encounter) is appended. -/
def insertIntoGroups (now : Int) (gs : List Group) (p : Photo) : List Group :=
  let info := photoGroupInfo now p
  if gs.any (fun g => g.dateKey == info.2) then
    gs.map (fun g =>
      if g.dateKey == info.2 then { g with photos := g.photos ++ [p] } else g)
  else gs ++ [{ label := info.1, dateKey := info.2, photos := [p] }]

/-- The derived store `groupedPhotos` (store.ts 306-359): bucket the
filtered sequence by dateKey, groups in first-encounter order. -/
def groupedPhotos (now : Int) (filtered : List Photo) : List Group :=
  filtered.foldl (insertIntoGroups now) []

/-- First occurrences of a list of keys, in order of first encounter
(specification device for the grouping theorems). -/
def firstOccurrences (ks : List String) : List String :=
  ks.foldl (fun acc k => if k ∈ acc then acc else acc ++ [k]) []

-- ── Pagination Controller (store.ts 518-570) ──

/-- The `photos.update` closure of `loadMorePhotos` (store.ts 553-562):
concatenate the fetched page, and if the result exceeds
`MAX_PHOTOS_IN_MEMORY` keep only its last `MAX_PHOTOS_IN_MEMORY` elements
(`combined.slice(combined.length - MAX_PHOTOS_IN_MEMORY)`). -/
def appendWithEviction (list nextPage : List Photo) : List Photo :=
  let combined := list ++ nextPage
  if MAX_PHOTOS_IN_MEMORY < combined.length then
    combined.drop (combined.length - MAX_PHOTOS_IN_MEMORY)
  else combined

/-- `loadAllPhotos` (store.ts 518-540).  `repo limit offset` is the
`get_all_photos` call; `none` means the call threw (the catch block leaves
every store unchanged).  On success the cache is replaced by the first page
and `hasMorePhotos := (firstPage.length >= PAGE_SIZE)`. -/
def loadAllPhotos (repo : Nat → Nat → Option (List Photo))
    (s : StoreState) : StoreState :=
  match repo PAGE_SIZE 0 with
  | none => s
  | some firstPage =>
      { s with photos := firstPage,
               hasMorePhotos := decide (PAGE_SIZE ≤ firstPage.length) }

/-- `loadMorePhotos` (store.ts 542-570).  Guard: no-op when already loading
or no more pages.  Otherwise fetch at `offset = current cache length`; on
throw only the `finally` runs (`isLoadingMore := false`); on an empty page
set `hasMorePhotos := false`; on a non-empty page append with eviction and
set `hasMorePhotos := (nextPage.length >= PAGE_SIZE)`.  The transient
`isLoadingMore := true` is folded with the guaranteed `finally` reset. -/
def loadMorePhotos (repo : Nat → Nat → Option (List Photo))
    (s : StoreState) : StoreState :=
  if s.isLoadingMore || !s.hasMorePhotos then s
  else
    match repo PAGE_SIZE s.photos.length with
    | none => { s with isLoadingMore := false }
    | some nextPage =>
        if nextPage.length = 0 then
          { s with hasMorePhotos := false, isLoadingMore := false }
        else
          { s with photos := appendWithEviction s.photos nextPage,
                   hasMorePhotos := decide (PAGE_SIZE ≤ nextPage.length),
                   isLoadingMore := false }

-- ── Mutating operations (store.ts 574-602, 629-632, 803-826) ──

/-- `toggleFavorite` (store.ts 574-590).  `repoResult` is the awaited
`toggle_favorite` call (`none` = it threw, caught: no local change, return
`false`).  On success the cache and `selectedPhoto` are updated to the
confirmed state and it is returned. -/
def toggleFavorite (photoId : Nat) (repoResult : Option Bool)
    (s : StoreState) : StoreState × Bool :=
  match repoResult with
  | none => (s, false)
  | some isFav =>
      ({ s with
          photos := s.photos.map (fun p =>
            if p.id = photoId then { p with isFavorite := isFav } else p),
          selectedPhoto := s.selectedPhoto.map (fun p =>
            if p.id = photoId then { p with isFavorite := isFav } else p) },
       isFav)

/-- `deletePhotos` (soft delete, store.ts 594-602).  On success the deleted
ids are removed from the cache and `selectedPhoto` is cleared if it was
among them; the selection stores are not touched.  On throw nothing
changes. -/
def deletePhotos (photoIds : List Nat) (repoResult : Option Unit)
    (s : StoreState) : StoreState :=
  match repoResult with
  | none => s
  | some _ =>
      { s with
          photos := s.photos.filter (fun p => !(photoIds.contains p.id)),
          selectedPhoto :=
            match s.selectedPhoto with
            | some p => if photoIds.contains p.id then none else some p
            | none => none }

/-- `renamePhoto` (store.ts 814-826).  On success (`rename_photo` resolves
with the new path) the cached record and `selectedPhoto` get the new
filename and path; on throw nothing changes. -/
def renamePhoto (photoId : Nat) (newFilename : String)
    (repoResult : Option String) (s : StoreState) : StoreState :=
  match repoResult with
  | none => s
  | some newPath =>
      { s with
          photos := s.photos.map (fun p =>
            if p.id = photoId then
              { p with filename := newFilename, path := newPath } else p),
          selectedPhoto := s.selectedPhoto.map (fun p =>
            if p.id = photoId then
              { p with filename := newFilename, path := newPath } else p) }

/-- `clearSelection` (store.ts 629-632): empty the selection set and leave
multi-select mode. -/
def clearSelection (s : StoreState) : StoreState :=
  { s with selectedPhotoIds := [], isMultiSelectMode := false }

/-- `hardDeletePhotos` (store.ts 803-812).  On success: remove the ids from
the cache, clear `selectedPhoto` if it was among them, then
`clearSelection()`.  On throw nothing changes. -/
def hardDeletePhotos (photoIds : List Nat) (repoResult : Option Unit)
    (s : StoreState) : StoreState :=
  match repoResult with
  | none => s
  | some _ =>
      clearSelection
        { s with
            photos := s.photos.filter (fun p => !(photoIds.contains p.id)),
            selectedPhoto :=
              match s.selectedPhoto with
              | some p => if photoIds.contains p.id then none else some p
              | none => none }

-- ── Concrete records and states for scenarios, witnesses and counterexamples ──

/-- A concrete photo record tagged by its fetch index. -/
def mkPhoto (n : Nat) : Photo :=
  { id := n, path := "", filename := "", folderRel := "", width := none,
    height := none, takenAt := none, modifiedAt := 0, sizeBytes := 0,
    mediaType := "photo", source := "", isFavorite := false, isDeleted := false,
    deletedAt := none, cameraMake := none, cameraModel := none, lens := none,
    iso := none, shutterSpeed := none, aperture := none, focalLength := none,
    gpsLat := none, gpsLon := none }

/-- The state with every writable store at its initial value from store.ts
(`photos = []`, `hasMorePhotos = true`, `isLoadingMore = false`,
default filters, empty query, `date-desc`, section `all`). -/
def baseState : StoreState :=
  { photos := [], hasMorePhotos := true, isLoadingMore := false,
    selectedPhoto := none, selectedPhotoIds := [], isMultiSelectMode := false,
    filters := { selectedFolder := none, selectedYear := none,
                 selectedMonth := none, selectedMediaTypes := ["photo", "video"] },
    searchQuery := "", sortBy := SortBy.dateDesc,
    activeSection := SidebarSection.all, activeSource := none, now := 0 }

/-- Spec §8 Scenario D: 2500 records arriving one page of `PAGE_SIZE = 100`
at a time, records numbered by fetch index. -/
def scenarioDPages : List (List Photo) :=
  (List.range 25).map (fun i =>
    (List.range PAGE_SIZE).map (fun j => mkPhoto (PAGE_SIZE * i + j)))

/-- The last `n` elements of a list (specification device: what the
sliding-window eviction is supposed to retain). -/
def keepLast (n : Nat) (l : List Photo) : List Photo := l.drop (l.length - n)

/-- A repository whose page fetch always fails (the `invoke` throws). -/
def repoFail : Nat → Nat → Option (List Photo) := fun _ _ => none

/-- A short page of 40 records (fewer than `PAGE_SIZE`). -/
def page40 : List Photo := (List.range 40).map mkPhoto

/-- A repository that always returns the short page. -/
def repoFew : Nat → Nat → Option (List Photo) := fun _ _ => some page40

/-- A plain photo record. -/
def photoA : Photo := mkPhoto 1

/-- A video record. -/
def videoB : Photo := { mkPhoto 2 with mediaType := "video" }

/-- A state on the `videos` section whose media-type filter selects only
photos (spec §8 Scenario C). -/
def videosState : StoreState :=
  { baseState with
      photos := [photoA, videoB],
      activeSection := SidebarSection.videos,
      filters := { baseState.filters with selectedMediaTypes := ["photo"] } }

/-- A photo whose effective date is day 20 after the epoch. -/
def recPhoto : Photo := { mkPhoto 3 with modifiedAt := 20 * 86400000 }

/-- `recents` view of `recPhoto` observed at day 40 (inside the window). -/
def recentsState1 : StoreState :=
  { baseState with
      photos := [recPhoto],
      activeSection := SidebarSection.recents,
      now := 40 * 86400000 }

/-- The same state observed at day 100 (outside the window): identical on
all six declared Filter Pipeline inputs, different clock. -/
def recentsState2 : StoreState := { recentsState1 with now := 100 * 86400000 }

/-- Two states agreeing on the six declared Filter Pipeline inputs but
differing in selection state, loading flags, `selectedPhoto` and (with a
non-`recents` section) the clock. -/
def frameState1 : StoreState :=
  { baseState with
      photos := [photoA],
      selectedPhotoIds := [7],
      isMultiSelectMode := true,
      now := 12345 }

/-- Counterpart of `frameState1` with different undeclared components. -/
def frameState2 : StoreState :=
  { baseState with
      photos := [photoA],
      selectedPhoto := some photoA,
      hasMorePhotos := false,
      isLoadingMore := true,
      now := 99999 }

/-- A photo dated 0000-03-01 (civil year 0, zero-indexed month 2). -/
def year0Photo : Photo := { mkPhoto 4 with modifiedAt := (-719468) * 86400000 }

/-- A state with `selectedYear = 0` (set but falsy in JS) and
`selectedMonth = 5`, over the year-0 photo. -/
def year0State : StoreState :=
  { baseState with
      photos := [year0Photo],
      filters := { baseState.filters with
                     selectedYear := some 0, selectedMonth := some 5 } }

/-- A photo dated 2024-05-15 (zero-indexed month 4). -/
def photoMay : Photo := { mkPhoto 6 with modifiedAt := 19858 * 86400000 }

/-- A state selecting year 2024 and (zero-indexed) month 4. -/
def monthState : StoreState :=
  { baseState with
      photos := [photoMay],
      filters := { baseState.filters with
                     selectedYear := some 2024, selectedMonth := some 4 } }

/-- A state with a month selected but no year. -/
def noYearState : StoreState :=
  { baseState with
      photos := [photoMay],
      filters := { baseState.filters with selectedMonth := some 3 } }

/-- A photo whose effective date is one day after the epoch. -/
def futurePhoto : Photo := { mkPhoto 5 with modifiedAt := 86400000 }

/-- `recents` view observed at the epoch (`now = 0`): the cached photo is
dated one day in the future. -/
def futureState : StoreState :=
  { baseState with
      photos := [futurePhoto],
      activeSection := SidebarSection.recents,
      now := 0 }

-- ── Helper lemmas: eviction as a suffix operation ──

theorem appendWithEviction_eq_keepLast (l b : List Photo) :
    appendWithEviction l b = keepLast MAX_PHOTOS_IN_MEMORY (l ++ b) := by
  show (if MAX_PHOTOS_IN_MEMORY < (l ++ b).length then
          (l ++ b).drop ((l ++ b).length - MAX_PHOTOS_IN_MEMORY)
        else l ++ b)
      = keepLast MAX_PHOTOS_IN_MEMORY (l ++ b)
  by_cases h : MAX_PHOTOS_IN_MEMORY < (l ++ b).length
  · rw [if_pos h]; rfl
  · rw [if_neg h, keepLast, Nat.sub_eq_zero_of_le (by omega), List.drop_zero]

theorem keepLast_append (n : Nat) (s b : List Photo) :
    keepLast n (keepLast n s ++ b) = keepLast n (s ++ b) := by
  rcases le_or_lt s.length n with h | h
  · have h0 : s.length - n = 0 := Nat.sub_eq_zero_of_le h
    unfold keepLast
    rw [h0, List.drop_zero]
  · have hlen : (s.drop (s.length - n)).length = n := by
      rw [List.length_drop]; omega
    unfold keepLast
    rw [List.drop_append_eq_append_drop, List.drop_append_eq_append_drop,
        List.drop_drop, hlen, List.length_append, List.length_append, hlen]
    congr 2 <;> omega

theorem foldl_appendWithEviction (bs : List (List Photo)) (s : List Photo) :
    bs.foldl appendWithEviction (keepLast MAX_PHOTOS_IN_MEMORY s)
      = keepLast MAX_PHOTOS_IN_MEMORY (s ++ bs.flatten) := by
  induction bs generalizing s with
  | nil => simp
  | cons b rest ih =>
      rw [List.foldl_cons, appendWithEviction_eq_keepLast, keepLast_append, ih,
        List.flatten_cons, List.append_assoc]

theorem foldl_appendWithEviction_nil (bs : List (List Photo)) :
    bs.foldl appendWithEviction [] = keepLast MAX_PHOTOS_IN_MEMORY bs.flatten := by
  have h := foldl_appendWithEviction bs []
  rw [show keepLast MAX_PHOTOS_IN_MEMORY ([] : List Photo) = [] from rfl] at h
  rw [h]
  rfl

theorem range_mul_flatten (n k : Nat) (f : Nat → Photo) :
    ((List.range n).map (fun i =>
        (List.range k).map (fun j => f (k * i + j)))).flatten
      = (List.range (n * k)).map f := by
  induction n with
  | zero => simp
  | succ n ih =>
      rw [List.range_succ, List.map_append, List.flatten_append, ih,
        Nat.succ_mul, List.range_add, List.map_append]
      congr 1
      simp only [List.map_cons, List.map_nil, List.flatten_cons,
        List.flatten_nil, List.append_nil, List.map_map]
      exact List.map_congr_left (fun j _ => by
        simp only [Function.comp_apply, Nat.mul_comm])

/-- C1: cache eviction invariant.  After any sequence of `loadMorePhotos`
appends starting from the empty cache, the cache length never exceeds
`MAX_PHOTOS_IN_MEMORY = 2000` and the retained records are exactly the last
2000 of the concatenated appended batches (earliest-appended dropped
first); in particular Scenario D — 2500 records appended one page of 100 at
a time — retains exactly the records at fetch index 500 through 2499. -/
theorem c1_cache_eviction_invariant :
    (∀ batches : List (List Photo),
        (batches.foldl appendWithEviction []).length ≤ MAX_PHOTOS_IN_MEMORY
      ∧ batches.foldl appendWithEviction []
          = batches.flatten.drop (batches.flatten.length - MAX_PHOTOS_IN_MEMORY))
  ∧ scenarioDPages.foldl appendWithEviction []
      = ((List.range 2500).map mkPhoto).drop 500
  ∧ (scenarioDPages.foldl appendWithEviction []).length = 2000 := by
  have key : ∀ batches : List (List Photo),
      batches.foldl appendWithEviction []
        = batches.flatten.drop (batches.flatten.length - MAX_PHOTOS_IN_MEMORY) :=
    fun batches => foldl_appendWithEviction_nil batches
  have scen : scenarioDPages.foldl appendWithEviction []
      = ((List.range 2500).map mkPhoto).drop 500 := by
    rw [key scenarioDPages]
    unfold scenarioDPages
    rw [range_mul_flatten 25 PAGE_SIZE mkPhoto,
      show (25 * PAGE_SIZE : Nat) = 2500 from rfl,
      List.length_map, List.length_range,
      show (2500 - MAX_PHOTOS_IN_MEMORY : Nat) = 500 from rfl]
  refine ⟨fun batches => ⟨?_, key batches⟩, scen, ?_⟩
  · rw [key batches, List.length_drop]
    omega
  · rw [scen]
    simp

/-- C2: pagination termination.  After a successful page fetch —
`loadMorePhotos` past its guard, or `loadAllPhotos` — `hasMorePhotos` is
false iff the fetched page had fewer than `PAGE_SIZE = 100` records
(zero-record pages included). -/
theorem c2_pagination_termination :
    ∀ (repo : Nat → Nat → Option (List Photo)) (s : StoreState)
      (page : List Photo),
      (s.isLoadingMore = false → s.hasMorePhotos = true →
        repo PAGE_SIZE s.photos.length = some page →
        ((loadMorePhotos repo s).hasMorePhotos = false ↔ page.length < PAGE_SIZE))
    ∧ (repo PAGE_SIZE 0 = some page →
        ((loadAllPhotos repo s).hasMorePhotos = false ↔ page.length < PAGE_SIZE)) := by
  intro repo s page
  constructor
  · intro h1 h2 h3
    rw [loadMorePhotos, h1, h2]
    simp only [Bool.not_true, Bool.or_false, Bool.false_or, if_false, h3]
    by_cases hp : page.length = 0
    · simp [hp, PAGE_SIZE]
    · simp only [hp, if_false]
      simp [decide_eq_false_iff_not, Nat.not_le]
  · intro h3
    rw [loadAllPhotos, h3]
    simp [decide_eq_false_iff_not, Nat.not_le]

/-- Witness for C2 at a concrete repository returning a 40-record page and
the initial store state: both loaders end with `hasMorePhotos = false`. -/
theorem c2_pagination_termination_witness :
    (loadMorePhotos repoFew baseState).hasMorePhotos = false
  ∧ (loadAllPhotos repoFew baseState).hasMorePhotos = false :=
  ⟨((c2_pagination_termination repoFew baseState page40).1 rfl rfl rfl).mpr
      (by decide),
   ((c2_pagination_termination repoFew baseState page40).2 rfl).mpr (by decide)⟩

/-- C9: pagination failure cleanup.  If the page fetch of a
`loadMorePhotos` invocation (past its guard) throws, then afterwards the
cache and `hasMorePhotos` are unchanged and `isLoadingMore` is false (the
`finally` cleanup ran). -/
theorem c9_pagination_failure_cleanup :
    ∀ (repo : Nat → Nat → Option (List Photo)) (s : StoreState),
      s.isLoadingMore = false → s.hasMorePhotos = true →
      repo PAGE_SIZE s.photos.length = none →
      (loadMorePhotos repo s).photos = s.photos
      ∧ (loadMorePhotos repo s).hasMorePhotos = s.hasMorePhotos
      ∧ (loadMorePhotos repo s).isLoadingMore = false := by
  intro repo s h1 h2 h3
  rw [loadMorePhotos, h1, h2]
  simp only [Bool.not_true, Bool.or_false, if_false, h3]
  exact ⟨rfl, rfl, rfl⟩

/-- Witness for C9 at the always-failing repository and the initial store
state. -/
theorem c9_pagination_failure_cleanup_witness :
    (loadMorePhotos repoFail baseState).photos = baseState.photos
  ∧ (loadMorePhotos repoFail baseState).hasMorePhotos = baseState.hasMorePhotos
  ∧ (loadMorePhotos repoFail baseState).isLoadingMore = false :=
  c9_pagination_failure_cleanup repoFail baseState rfl rfl rfl

/-- C8: mutation atomicity.  When the repository call of a mutating
operation (`toggleFavorite`, `deletePhotos`, `renamePhoto`) throws, the
store state — cache and `selectedPhoto` included — is left completely
unchanged. -/
theorem c8_mutation_atomicity :
    ∀ (s : StoreState) (photoId : Nat) (photoIds : List Nat)
      (newFilename : String),
      toggleFavorite photoId none s = (s, false)
    ∧ deletePhotos photoIds none s = s
    ∧ renamePhoto photoId newFilename none s = s :=
  fun _ _ _ _ => ⟨rfl, rfl, rfl⟩

/-- C10: a successful `hardDeletePhotos` empties the selection set and
leaves multi-select mode (it calls `clearSelection`), whereas a successful
soft `deletePhotos` leaves both selection stores untouched. -/
theorem c10_hard_delete_clears_selection :
    ∀ (s : StoreState) (photoIds : List Nat),
      (hardDeletePhotos photoIds (some ()) s).selectedPhotoIds = []
    ∧ (hardDeletePhotos photoIds (some ()) s).isMultiSelectMode = false
    ∧ (deletePhotos photoIds (some ()) s).selectedPhotoIds = s.selectedPhotoIds
    ∧ (deletePhotos photoIds (some ()) s).isMultiSelectMode = s.isMultiSelectMode :=
  fun _ _ => ⟨rfl, rfl, rfl, rfl⟩

-- ── Helper lemmas: membership through the pipeline stages ──

theorem mem_of_mem_sourceFilterStage {sec src l p}
    (h : p ∈ sourceFilterStage sec src l) : p ∈ l := by
  rw [sourceFilterStage] at h
  split at h
  · exact (List.mem_filter.mp h).1
  · exact h

theorem mem_of_mem_sectionFilterStage {now sec l p}
    (h : p ∈ sectionFilterStage now sec l) : p ∈ l := by
  cases sec <;> first | exact h | exact (List.mem_filter.mp h).1

theorem mem_of_mem_searchFilterStage {q l p}
    (h : p ∈ searchFilterStage q l) : p ∈ l := by
  rw [searchFilterStage] at h
  split at h
  · exact (List.mem_filter.mp h).1
  · exact h

theorem mem_of_mem_mediaTypeFilterStage {sec mts l p}
    (h : p ∈ mediaTypeFilterStage sec mts l) : p ∈ l := by
  rw [mediaTypeFilterStage] at h
  split at h
  · exact (List.mem_filter.mp h).1
  · exact h

theorem mem_of_mem_folderFilterStage {folder l p}
    (h : p ∈ folderFilterStage folder l) : p ∈ l := by
  rw [folderFilterStage] at h
  split at h
  · exact (List.mem_filter.mp h).1
  · exact h

theorem mem_of_mem_yearFilterStage {year l p}
    (h : p ∈ yearFilterStage year l) : p ∈ l := by
  cases year with
  | none => exact h
  | some y =>
      rw [yearFilterStage] at h
      split at h
      · exact h
      · exact (List.mem_filter.mp h).1

theorem mem_of_mem_monthFilterStage {year month l p}
    (h : p ∈ monthFilterStage year month l) : p ∈ l := by
  cases month with
  | none => exact h
  | some m =>
      cases year with
      | none => exact h
      | some y =>
          rw [monthFilterStage] at h
          split at h
          · exact h
          · exact (List.mem_filter.mp h).1

theorem mem_sortStage {sb l p} : p ∈ sortStage sb l ↔ p ∈ l :=
  (List.mergeSort_perm l (sortLe sb)).mem_iff

theorem sortStage_nil (sb : SortBy) : sortStage sb [] = [] :=
  List.mergeSort_nil

theorem sortStage_singleton (sb : SortBy) (p : Photo) : sortStage sb [p] = [p] :=
  List.mergeSort_singleton p

theorem mediaTypeFilterStage_videos (mts : List String) (l : List Photo) :
    mediaTypeFilterStage SidebarSection.videos mts l = l := by
  rw [mediaTypeFilterStage, if_neg (by simp)]

theorem monthFilterStage_year_none (m : Option Int) (l : List Photo) :
    monthFilterStage none m l = l := by
  cases m <;> rfl

theorem sectionFilterStage_now_eq (n1 n2 : Int) (sec : SidebarSection)
    (l : List Photo) (h : sec ≠ SidebarSection.recents) :
    sectionFilterStage n1 sec l = sectionFilterStage n2 sec l := by
  cases sec <;> first | rfl | exact absurd rfl h

-- ── C3: Filter Pipeline purity/determinism ──

/-- Counterexample to C3 as stated: two states that agree on all six
declared Filter Pipeline inputs (cache, filters, query, sort, section,
source) but are observed at different clock instants produce different
outputs — the `recents` branch reads `new Date()`, an undeclared input. -/
theorem c3_counterexample_clock_dependence :
    recentsState1.photos = recentsState2.photos
  ∧ recentsState1.filters = recentsState2.filters
  ∧ recentsState1.searchQuery = recentsState2.searchQuery
  ∧ recentsState1.sortBy = recentsState2.sortBy
  ∧ recentsState1.activeSection = recentsState2.activeSection
  ∧ recentsState1.activeSource = recentsState2.activeSource
  ∧ filteredPhotos recentsState1 ≠ filteredPhotos recentsState2 := by
  refine ⟨rfl, rfl, rfl, rfl, rfl, rfl, ?_⟩
  rw [show filteredPhotos recentsState1 = [recPhoto] from
        sortStage_singleton SortBy.dateDesc recPhoto,
      show filteredPhotos recentsState2 = [] from sortStage_nil SortBy.dateDesc]
  simp

/-- C3 (amended): the Filter Pipeline output depends on nothing other than
the six declared inputs and — only when the active section is `recents` —
the current clock instant.  With the clock fixed, identical inputs give an
identical ordered output. -/
theorem c3_filter_pipeline_determinism :
    ∀ s1 s2 : StoreState,
      s1.photos = s2.photos → s1.filters = s2.filters →
      s1.searchQuery = s2.searchQuery → s1.sortBy = s2.sortBy →
      s1.activeSection = s2.activeSection → s1.activeSource = s2.activeSource →
      (s1.activeSection = SidebarSection.recents → s1.now = s2.now) →
      filteredPhotos s1 = filteredPhotos s2 := by
  intro s1 s2 h1 h2 h3 h4 h5 h6 h7
  rw [filteredPhotos, filteredPhotos, h1, h2, h3, h4, h5, h6]
  by_cases hrec : s2.activeSection = SidebarSection.recents
  · rw [h7 (h5.trans hrec)]
  · rw [sectionFilterStage_now_eq s1.now s2.now s2.activeSection _ hrec]

/-- Witness for C3 at `frameState1`/`frameState2`: agreeing on the six
declared inputs (section `all`, so the differing clocks are irrelevant),
the outputs coincide even though selection, loading flags and
`selectedPhoto` differ. -/
theorem c3_filter_pipeline_determinism_witness :
    filteredPhotos frameState1 = [photoA]
  ∧ filteredPhotos frameState1 = filteredPhotos frameState2 :=
  ⟨show filteredPhotos frameState1 = [photoA] from
     sortStage_singleton SortBy.dateDesc photoA,
   c3_filter_pipeline_determinism frameState1 frameState2 rfl rfl rfl rfl rfl rfl
     (fun h => absurd h (by decide))⟩

-- ── C5: videos-section media-type override ──

/-- C5: when the active section is `videos` the media-type filter stage is
skipped — every record in the output has `mediaType = "video"` whatever
`selectedMediaTypes` holds, and changing `selectedMediaTypes` does not
change the output at all. -/
theorem c5_videos_section_override :
    ∀ s : StoreState, s.activeSection = SidebarSection.videos →
      (∀ p ∈ filteredPhotos s, p.mediaType = "video")
    ∧ (∀ mts : List String,
        filteredPhotos
            { s with filters := { s.filters with selectedMediaTypes := mts } }
          = filteredPhotos s) := by
  intro s hs
  constructor
  · intro p hp
    rw [filteredPhotos, hs] at hp
    have h1 := mem_of_mem_monthFilterStage (mem_sortStage.mp hp)
    have h2 := mem_of_mem_yearFilterStage h1
    have h3 := mem_of_mem_folderFilterStage h2
    have h4 := mem_of_mem_mediaTypeFilterStage h3
    have h5 := mem_of_mem_searchFilterStage h4
    rw [sectionFilterStage] at h5
    have := (List.mem_filter.mp h5).2
    exact eq_of_beq this
  · intro mts
    rw [filteredPhotos, filteredPhotos]
    simp only [hs, mediaTypeFilterStage_videos]

/-- Witness for C5 at `videosState` (Scenario C: `selectedMediaTypes =
["photo"]`, section `videos`): the output is exactly the video record, and
widening the media-type selection changes nothing. -/
theorem c5_videos_section_override_witness :
    filteredPhotos videosState = [videoB]
  ∧ videoB.mediaType = "video"
  ∧ filteredPhotos
        { videosState with
            filters := { videosState.filters with
                           selectedMediaTypes := ["photo", "video"] } }
      = filteredPhotos videosState :=
  ⟨show filteredPhotos videosState = [videoB] from
     sortStage_singleton SortBy.dateDesc videoB,
   (c5_videos_section_override videosState rfl).1 videoB
     (by rw [show filteredPhotos videosState = [videoB] from
               sortStage_singleton SortBy.dateDesc videoB]
         exact List.mem_singleton.mpr rfl),
   (c5_videos_section_override videosState rfl).2 ["photo", "video"]⟩

-- ── C6: month filter and the year requirement ──

/-- Counterexample to C6 as stated: with `selectedYear = 0` and
`selectedMonth = 5` both set, the year-0 photo (zero-indexed month 2 ≠ 5)
still appears in the output — the code guards the month stage with the JS
truthiness check `$filters.selectedYear`, which treats the set year `0` as
unset, so the month stage is skipped rather than applied. -/
theorem c6_counterexample_truthy_year :
    year0State.filters.selectedYear = some 0
  ∧ year0State.filters.selectedMonth = some 5
  ∧ filteredPhotos year0State = [year0Photo]
  ∧ jsGetMonth (effectiveDate year0Photo) ≠ 5 :=
  ⟨rfl, rfl,
   show filteredPhotos year0State = [year0Photo] from
     sortStage_singleton SortBy.dateDesc year0Photo,
   by decide⟩

/-- C6 (amended): the month stage runs only when `selectedMonth` is set and
`selectedYear` is set and nonzero (JS truthiness).  Setting
`selectedMonth` with `selectedYear` unset is a no-op (the output equals
the one with `selectedMonth = null`), and when `selectedMonth = m` and
`selectedYear = y` with `y ≠ 0`, every output record's effective date has
year `y` and zero-indexed month `m`. -/
theorem c6_month_filter_requires_truthy_year :
    ∀ s : StoreState,
      (s.filters.selectedYear = none →
        filteredPhotos s
          = filteredPhotos
              { s with filters := { s.filters with selectedMonth := none } })
    ∧ (∀ y m : Int, s.filters.selectedYear = some y → y ≠ 0 →
        s.filters.selectedMonth = some m →
        ∀ p ∈ filteredPhotos s,
          jsGetFullYear (effectiveDate p) = y
          ∧ jsGetMonth (effectiveDate p) = m) := by
  intro s
  constructor
  · intro hy
    rw [filteredPhotos, filteredPhotos]
    simp only [hy, monthFilterStage_year_none]
  · intro y m hy hy0 hm p hp
    rw [filteredPhotos, hy, hm] at hp
    have h1 := mem_sortStage.mp hp
    rw [monthFilterStage, if_neg hy0] at h1
    have h2 := (List.mem_filter.mp h1).2
    rw [Bool.and_eq_true, beq_iff_eq, beq_iff_eq] at h2
    exact h2

/-- Witness for C6: with no year, selecting month 3 is a no-op; with year
2024 and month 4 selected, the 2024-05-15 photo is in the output and its
effective date has year 2024 and zero-indexed month 4. -/
theorem c6_month_filter_requires_truthy_year_witness :
    filteredPhotos noYearState
      = filteredPhotos
          { noYearState with
              filters := { noYearState.filters with selectedMonth := none } }
  ∧ (jsGetFullYear (effectiveDate photoMay) = 2024
      ∧ jsGetMonth (effectiveDate photoMay) = 4) :=
  ⟨(c6_month_filter_requires_truthy_year noYearState).1 rfl,
   (c6_month_filter_requires_truthy_year monthState).2 2024 4 rfl (by decide)
     rfl photoMay
     (by rw [show filteredPhotos monthState = [photoMay] from
               sortStage_singleton SortBy.dateDesc photoMay]
         exact List.mem_singleton.mpr rfl)⟩

-- ── C7: the recents window ──

/-- Counterexample to C7 as stated: at `now = 0` the `recents` output
contains a record whose effective date is one day after the current
instant — the code's window check `date >= cutoff` has no upper bound, so
records dated after the current instant are not excluded. -/
theorem c7_counterexample_future_dates :
    filteredPhotos futureState = [futurePhoto]
  ∧ futureState.now < effectiveDate futurePhoto :=
  ⟨show filteredPhotos futureState = [futurePhoto] from
     sortStage_singleton SortBy.dateDesc futurePhoto,
   by decide⟩

/-- C7 (amended): when the active section is `recents`, the section filter
keeps exactly the records whose effective date is at or after `now` minus
30 days — the lower boundary is inclusive and there is no upper bound, so
records dated after the current instant are also kept. -/
theorem c7_recents_window_lower_bound_only :
    ∀ (now : Int) (l : List Photo) (p : Photo),
      p ∈ sectionFilterStage now SidebarSection.recents l
        ↔ p ∈ l ∧ now - 30 * MS_PER_DAY ≤ effectiveDate p := by
  intro now l p
  rw [sectionFilterStage]
  simp [List.mem_filter]

-- ── C4: Grouping Engine completeness ──

theorem photoDateKey_eq (now : Int) (p : Photo) :
    (photoGroupInfo now p).2 = photoDateKey now p := rfl

theorem foldl_firstOcc_mem (x : String) :
    ∀ (ks acc : List String),
      (x ∈ ks.foldl (fun acc k => if k ∈ acc then acc else acc ++ [k]) acc
        ↔ x ∈ acc ∨ x ∈ ks) := by
  intro ks
  induction ks with
  | nil => intro acc; simp
  | cons k ks ih =>
      intro acc
      rw [List.foldl_cons, ih]
      by_cases hk : k ∈ acc
      · rw [if_pos hk]
        constructor
        · intro h; rcases h with h | h
          · exact Or.inl h
          · exact Or.inr (List.mem_cons_of_mem k h)
        · intro h; rcases h with h | h
          · exact Or.inl h
          · rcases List.mem_cons.mp h with h | h
            · exact Or.inl (h ▸ hk)
            · exact Or.inr h
      · rw [if_neg hk]
        simp only [List.mem_append, List.mem_singleton, List.mem_cons]
        tauto

theorem mem_firstOccurrences {x : String} {ks : List String} :
    x ∈ firstOccurrences ks ↔ x ∈ ks := by
  rw [firstOccurrences, foldl_firstOcc_mem]
  simp

theorem foldl_firstOcc_nodup :
    ∀ (ks acc : List String), acc.Nodup →
      (ks.foldl (fun acc k => if k ∈ acc then acc else acc ++ [k]) acc).Nodup := by
  intro ks
  induction ks with
  | nil => intro acc h; exact h
  | cons k ks ih =>
      intro acc h
      rw [List.foldl_cons]
      by_cases hk : k ∈ acc
      · rw [if_pos hk]; exact ih acc h
      · rw [if_neg hk]
        refine ih _ (List.nodup_append.mpr ⟨h, List.nodup_singleton k, ?_⟩)
        intro a ha hak
        exact hk ((List.mem_singleton.mp hak) ▸ ha)

theorem nodup_firstOccurrences (ks : List String) :
    (firstOccurrences ks).Nodup :=
  foldl_firstOcc_nodup ks [] List.nodup_nil

theorem firstOccurrences_append (ks : List String) (k : String) :
    firstOccurrences (ks ++ [k])
      = if k ∈ firstOccurrences ks then firstOccurrences ks
        else firstOccurrences ks ++ [k] := by
  rw [firstOccurrences, firstOccurrences, List.foldl_append]
  rfl

theorem groupedPhotos_append (now : Int) (l : List Photo) (p : Photo) :
    groupedPhotos now (l ++ [p]) = insertIntoGroups now (groupedPhotos now l) p := by
  rw [groupedPhotos, groupedPhotos, List.foldl_append]
  rfl

theorem beq_string_false {a b : String} (h : a ≠ b) : (a == b) = false := by
  rcases Bool.eq_false_or_eq_true (a == b) with ht | hf
  · exact absurd (eq_of_beq ht) h
  · exact hf

theorem groupedPhotos_invariant (now : Int) (l : List Photo) :
    ((groupedPhotos now l).map (fun g => g.dateKey)
        = firstOccurrences (l.map (photoDateKey now)))
  ∧ (∀ g ∈ groupedPhotos now l,
      g.photos = l.filter (fun q => photoDateKey now q == g.dateKey)) := by
  induction l using List.reverseRecOn with
  | nil =>
      refine ⟨rfl, ?_⟩
      intro g hg
      simp [groupedPhotos] at hg
  | append_singleton l p ih =>
      obtain ⟨ihk, ihp⟩ := ih
      rw [groupedPhotos_append]
      simp only [insertIntoGroups, photoDateKey_eq]
      have hmapkey : (l ++ [p]).map (photoDateKey now)
          = l.map (photoDateKey now) ++ [photoDateKey now p] := by
        rw [List.map_append]
        rfl
      by_cases hany :
          (groupedPhotos now l).any (fun g => g.dateKey == photoDateKey now p)
      · rw [if_pos hany]
        have hkmem : photoDateKey now p
            ∈ (groupedPhotos now l).map (fun g => g.dateKey) := by
          rcases List.any_eq_true.mp hany with ⟨g, hg, hbeq⟩
          exact List.mem_map.mpr ⟨g, hg, eq_of_beq hbeq⟩
        constructor
        · rw [List.map_map]
          have hcomp : ((fun g : Group => g.dateKey) ∘ fun g =>
                if g.dateKey == photoDateKey now p then
                  { g with photos := g.photos ++ [p] } else g)
              = (fun g : Group => g.dateKey) := by
            funext g
            by_cases h : g.dateKey == photoDateKey now p <;>
              simp [Function.comp, h]
          rw [hcomp, ihk, hmapkey, firstOccurrences_append,
            if_pos (ihk ▸ hkmem)]
        · intro g' hg'
          rcases List.mem_map.mp hg' with ⟨g, hg, rfl⟩
          by_cases h : (g.dateKey == photoDateKey now p) = true
          · rw [if_pos h]
            have hk : g.dateKey = photoDateKey now p := eq_of_beq h
            show g.photos ++ [p]
                = (l ++ [p]).filter (fun q => photoDateKey now q == g.dateKey)
            rw [List.filter_append, ← ihp g hg]
            have hfp : [p].filter (fun q => photoDateKey now q == g.dateKey)
                = [p] := by simp [hk]
            rw [hfp]
          · rw [if_neg h]
            show g.photos
                = (l ++ [p]).filter (fun q => photoDateKey now q == g.dateKey)
            rw [List.filter_append, ← ihp g hg]
            have hne : g.dateKey ≠ photoDateKey now p := fun he => h (beq_iff_eq.mpr he)
            have hfp : [p].filter (fun q => photoDateKey now q == g.dateKey)
                = [] := by simp [beq_string_false (fun he => hne he.symm)]
            rw [hfp, List.append_nil]
      · rw [if_neg hany]
        have hknotmem : photoDateKey now p
            ∉ (groupedPhotos now l).map (fun g => g.dateKey) := by
          intro hc
          rcases List.mem_map.mp hc with ⟨g, hg, hgk⟩
          exact hany (List.any_eq_true.mpr ⟨g, hg, beq_iff_eq.mpr hgk⟩)
        have hknotfo : photoDateKey now p
            ∉ firstOccurrences (l.map (photoDateKey now)) := ihk ▸ hknotmem
        have hknotl : photoDateKey now p ∉ l.map (photoDateKey now) :=
          fun hc => hknotfo (mem_firstOccurrences.mpr hc)
        constructor
        · rw [List.map_append, ihk, hmapkey, firstOccurrences_append,
            if_neg hknotfo]
          rfl
        · intro g' hg'
          rcases List.mem_append.mp hg' with hg | hg
          · have hne : g'.dateKey ≠ photoDateKey now p := by
              intro he
              exact hknotmem (he ▸ List.mem_map_of_mem _ hg)
            rw [List.filter_append, ← ihp g' hg]
            have hfp : [p].filter (fun q => photoDateKey now q == g'.dateKey)
                = [] := by simp [beq_string_false (fun he => hne he.symm)]
            rw [hfp, List.append_nil]
          · rw [List.mem_singleton.mp hg]
            show [p] = (l ++ [p]).filter
                (fun q => photoDateKey now q == photoDateKey now p)
            rw [List.filter_append]
            have hl0 : l.filter (fun q => photoDateKey now q == photoDateKey now p)
                = [] := by
              rw [List.filter_eq_nil_iff]
              intro q hq hbe
              exact hknotl (eq_of_beq hbe ▸ List.mem_map_of_mem _ hq)
            have hp1 : [p].filter (fun q => photoDateKey now q == photoDateKey now p)
                = [p] := by simp
            rw [hl0, hp1, List.nil_append]

theorem flatMap_filter_perm (key : Photo → String) :
    ∀ ks : List String, ks.Nodup →
      ∀ l : List Photo, (∀ p ∈ l, key p ∈ ks) →
      (ks.flatMap (fun k => l.filter (fun p => key p == k))).Perm l := by
  intro ks
  induction ks with
  | nil =>
      intro _ l hl
      have hnil : l = [] :=
        List.eq_nil_iff_forall_not_mem.mpr (fun a ha => by simpa using hl a ha)
      subst hnil
      simp
  | cons k ks ih =>
      intro hnd l hl
      obtain ⟨hk_not, hnd'⟩ := List.nodup_cons.mp hnd
      rw [List.flatMap_cons]
      have hsplit := List.filter_append_perm (fun p => key p == k) l
      have htail : ks.flatMap (fun k' => l.filter (fun p => key p == k'))
          = ks.flatMap (fun k' =>
              (l.filter (fun p => !(key p == k))).filter
                (fun p => key p == k')) := by
        rw [List.flatMap_def, List.flatMap_def]
        congr 1
        apply List.map_congr_left
        intro k' hk'
        rw [List.filter_filter]
        apply List.filter_congr
        intro q hq
        by_cases h : key q = k'
        · have hkk : k' ≠ k := fun he => hk_not (he ▸ hk')
          simp [h, hkk]
        · simp [h]
      have hcover : ∀ q ∈ l.filter (fun p => !(key p == k)), key q ∈ ks := by
        intro q hq
        rcases List.mem_filter.mp hq with ⟨hql, hqk⟩
        rcases List.mem_cons.mp (hl q hql) with he | hm
        · exfalso
          rw [he] at hqk
          simp at hqk
        · exact hm
      have hperm2 := ih hnd' (l.filter (fun p => !(key p == k))) hcover
      rw [htail]
      exact (hperm2.append_left _).trans hsplit

/-- C4: grouping completeness.  The groups emitted by `groupedPhotos`
partition the Filter Pipeline output exactly: the concatenation of all
group records is a permutation of the input (each record lands in exactly
one group), each group's records are exactly the input records bearing its
dateKey in input order, and the groups appear in first-encounter order of
their dateKeys over the input. -/
theorem c4_grouping_completeness :
    ∀ (now : Int) (filtered : List Photo),
      ((groupedPhotos now filtered).flatMap (fun g => g.photos)).Perm filtered
    ∧ (∀ g ∈ groupedPhotos now filtered,
        g.photos = filtered.filter (fun q => photoDateKey now q == g.dateKey))
    ∧ (groupedPhotos now filtered).map (fun g => g.dateKey)
        = firstOccurrences (filtered.map (photoDateKey now)) := by
  intro now filtered
  obtain ⟨hkeys, hphotos⟩ := groupedPhotos_invariant now filtered
  refine ⟨?_, hphotos, hkeys⟩
  have h1 : (groupedPhotos now filtered).flatMap (fun g => g.photos)
      = ((groupedPhotos now filtered).map (fun g => g.dateKey)).flatMap
          (fun k => filtered.filter (fun q => photoDateKey now q == k)) := by
    rw [List.flatMap_def, List.flatMap_def, List.map_map]
    congr 1
    apply List.map_congr_left
    intro g hg
    simpa [Function.comp] using hphotos g hg
  rw [h1, hkeys]
  exact flatMap_filter_perm (photoDateKey now)
    (firstOccurrences (filtered.map (photoDateKey now)))
    (nodup_firstOccurrences _) filtered
    (fun p hp => mem_firstOccurrences.mpr (List.mem_map_of_mem _ hp))

end Store
